import Mathlib

/-!
Shallow embedding of the market-making simulation engine of this repository
(`src/App.tsx`, duplicated with minor variations in `src/unnamed/part_000`,
and `src/types.ts`): the Avellaneda-Stoikov-style tick pipeline — price
shock, quoting model, probabilistic fill simulation, portfolio ledger,
statistics update, bounded chart history — together with the reset handler.
JavaScript numbers are modelled as real numbers and `Math.exp` as `Real.exp`;
the three `Math.random()` calls a tick performs are passed in explicitly as
a `Draws` record, in program order.
-/

namespace MMSim

/-- Configuration read by the tick: the `riskAversion` (γ) and `volatility`
(σ) slider values (`App.tsx` lines 198–199). -/
structure SimConfig where
  riskAversion : ℝ
  volatility : ℝ

/-- `interface SimState` (`App.tsx` lines 179–186). -/
structure SimState where
  midPrice : ℝ
  reservationPrice : ℝ
  inventory : ℝ
  cash : ℝ
  myBid : ℝ
  myAsk : ℝ

/-- `interface SimulationStats` (`src/types.ts` lines 23–28); `trades` is a
counter starting at 0 and bumped by 1, so it is modelled as a natural. -/
structure SimulationStats where
  pnl : ℝ
  trades : ℕ
  volume : ℝ
  latency : ℝ

/-- One entry appended to `marketData` each tick (`App.tsx` lines 274–281). -/
structure ChartPoint where
  timestamp : ℕ
  price : ℝ
  reservation : ℝ
  bid : ℝ
  ask : ℝ
  inventory : ℝ

/-- The three `Math.random()` results consumed by one tick, in program
order: the price-shock draw, the ask-fill draw, the bid-fill draw. -/
structure Draws where
  dPrice : ℝ
  dAsk : ℝ
  dBid : ℝ

/-- `const INITIAL_PRICE = 1000` (`App.tsx` line 188). -/
noncomputable def INITIAL_PRICE : ℝ := 1000

/-- `const INITIAL_CASH = 10000` (`App.tsx` line 189). -/
noncomputable def INITIAL_CASH : ℝ := 10000

/-- The initial `simState` (`App.tsx` lines 202–209). -/
noncomputable def initialSimState : SimState :=
  { midPrice := INITIAL_PRICE, reservationPrice := INITIAL_PRICE,
    inventory := 0, cash := INITIAL_CASH, myBid := 999.5, myAsk := 1000.5 }

/-- The initial `stats` (`App.tsx` line 212). -/
noncomputable def initialStats : SimulationStats :=
  { pnl := 0, trades := 0, volume := 0, latency := 0 }

/-- The mutable state owned by the component: `simState`, `stats` and the
`marketData` chart buffer. -/
structure AppState where
  sim : SimState
  stats : SimulationStats
  marketData : List ChartPoint

/-- The state before any tick has run. -/
noncomputable def initialApp : AppState :=
  { sim := initialSimState, stats := initialStats, marketData := [] }

/-- `const shock = (Math.random() - 0.5) * volatility * 2` (line 224). -/
noncomputable def shock (cfg : SimConfig) (d : Draws) : ℝ :=
  (d.dPrice - 0.5) * cfg.volatility * 2

/-- `const newMid = prev.midPrice + shock` (line 225). -/
noncomputable def newMid (cfg : SimConfig) (s : SimState) (d : Draws) : ℝ :=
  s.midPrice + shock cfg d

/-- `const inventorySkew = prev.inventory * riskAversion * volatility * 5`
(line 229). -/
noncomputable def inventorySkew (cfg : SimConfig) (s : SimState) : ℝ :=
  s.inventory * cfg.riskAversion * cfg.volatility * 5

/-- `const newReservation = newMid - inventorySkew` (line 230). -/
noncomputable def newReservation (cfg : SimConfig) (s : SimState) (d : Draws) : ℝ :=
  newMid cfg s d - inventorySkew cfg s

/-- `const halfSpread = volatility * 0.8` (line 233). -/
noncomputable def halfSpread (cfg : SimConfig) : ℝ :=
  cfg.volatility * 0.8

/-- `const newBid = newReservation - halfSpread` (line 234). -/
noncomputable def newBid (cfg : SimConfig) (s : SimState) (d : Draws) : ℝ :=
  newReservation cfg s d - halfSpread cfg

/-- `const newAsk = newReservation + halfSpread` (line 235). -/
noncomputable def newAsk (cfg : SimConfig) (s : SimState) (d : Draws) : ℝ :=
  newReservation cfg s d + halfSpread cfg

/-- `const probHitAsk = Math.exp(-1.5 * (newAsk - newMid))` (line 238). -/
noncomputable def probHitAsk (cfg : SimConfig) (s : SimState) (d : Draws) : ℝ :=
  Real.exp (-1.5 * (newAsk cfg s d - newMid cfg s d))

/-- `const probHitBid = Math.exp(-1.5 * (newMid - newBid))` (line 239). -/
noncomputable def probHitBid (cfg : SimConfig) (s : SimState) (d : Draws) : ℝ :=
  Real.exp (-1.5 * (newMid cfg s d - newBid cfg s d))

/-- The ask-fill test `Math.random() < probHitAsk * 0.3` (line 246). -/
abbrev askFilled (cfg : SimConfig) (s : SimState) (d : Draws) : Prop :=
  d.dAsk < probHitAsk cfg s d * 0.3

/-- The bid-fill test `Math.random() < probHitBid * 0.3` (line 253). -/
abbrev bidFilled (cfg : SimConfig) (s : SimState) (d : Draws) : Prop :=
  d.dBid < probHitBid cfg s d * 0.3

/-- `(nextInv, nextCash)` after the ask-fill block (lines 241–250):
on an ask fill, `nextInv -= 1; nextCash += newAsk`. -/
noncomputable def afterAsk (cfg : SimConfig) (s : SimState) (d : Draws) : ℝ × ℝ :=
  if askFilled cfg s d then (s.inventory - 1, s.cash + newAsk cfg s d)
  else (s.inventory, s.cash)

/-- `(nextInv, nextCash)` after both fill blocks (lines 241–257):
on a bid fill, `nextInv += 1; nextCash -= newBid`. -/
noncomputable def afterBoth (cfg : SimConfig) (s : SimState) (d : Draws) : ℝ × ℝ :=
  if bidFilled cfg s d then
    ((afterAsk cfg s d).1 + 1, (afterAsk cfg s d).2 - newBid cfg s d)
  else afterAsk cfg s d

/-- The tick's final `nextInv`. -/
noncomputable def nextInv (cfg : SimConfig) (s : SimState) (d : Draws) : ℝ :=
  (afterBoth cfg s d).1

/-- The tick's final `nextCash`. -/
noncomputable def nextCash (cfg : SimConfig) (s : SimState) (d : Draws) : ℝ :=
  (afterBoth cfg s d).2

/-- `tradeOccurred` is set exactly when the ask fill or the bid fill fired. -/
abbrev tradeOccurred (cfg : SimConfig) (s : SimState) (d : Draws) : Prop :=
  askFilled cfg s d ∨ bidFilled cfg s d

/-- `const markToMarketVal = nextCash + (nextInv * newMid)` (line 260). -/
noncomputable def markToMarketVal (cfg : SimConfig) (s : SimState) (d : Draws) : ℝ :=
  nextCash cfg s d + nextInv cfg s d * newMid cfg s d

/-- `const pnl = markToMarketVal - INITIAL_CASH` (line 261). -/
noncomputable def pnlVal (cfg : SimConfig) (s : SimState) (d : Draws) : ℝ :=
  markToMarketVal cfg s d - INITIAL_CASH

/-- The `setStats` update (lines 263–270): only when `tradeOccurred`,
`trades` is bumped by 1, `newMid` is added to `volume` once, and `pnl` is
overwritten; otherwise the stats record is left untouched. -/
noncomputable def nextStats (cfg : SimConfig) (s : SimState) (d : Draws)
    (st : SimulationStats) : SimulationStats :=
  if tradeOccurred cfg s d then
    { st with trades := st.trades + 1, volume := st.volume + newMid cfg s d,
              pnl := pnlVal cfg s d }
  else st

/-- The `setMarketData` update (lines 273–284): append the new point, then
`if (newData.length > 60) newData.shift()`. -/
def pushChart {α : Type*} (l : List α) (x : α) : List α :=
  let nd := l ++ [x]
  if nd.length > 60 then nd.tail else nd

/-- The chart point recorded for this tick (lines 274–281). -/
noncomputable def tickPoint (cfg : SimConfig) (s : SimState) (d : Draws)
    (t : ℕ) : ChartPoint :=
  { timestamp := t, price := newMid cfg s d, reservation := newReservation cfg s d,
    bid := newBid cfg s d, ask := newAsk cfg s d, inventory := nextInv cfg s d }

/-- One full simulation tick (`App.tsx` lines 219–294): new `simState`,
new `stats`, new `marketData`. -/
noncomputable def tick (cfg : SimConfig) (a : AppState) (t : ℕ) (d : Draws) : AppState :=
  { sim := { midPrice := newMid cfg a.sim d,
             reservationPrice := newReservation cfg a.sim d,
             inventory := nextInv cfg a.sim d,
             cash := nextCash cfg a.sim d,
             myBid := newBid cfg a.sim d,
             myAsk := newAsk cfg a.sim d },
    stats := nextStats cfg a.sim d a.stats,
    marketData := pushChart a.marketData (tickPoint cfg a.sim d t) }

/-- The reset button handler (`App.tsx` lines 456–460): stats, simState and
marketData are all set back to their initial constants. -/
noncomputable def resetApp (_a : AppState) : AppState :=
  { sim := { midPrice := INITIAL_PRICE, reservationPrice := INITIAL_PRICE,
             inventory := 0, cash := INITIAL_CASH, myBid := 999.5, myAsk := 1000.5 },
    stats := { pnl := 0, trades := 0, volume := 0, latency := 0 },
    marketData := [] }

/-- The states reachable from start-up via ticks (under any configuration
and any random draws) and resets. -/
inductive Reachable : AppState → Prop
  | init : Reachable initialApp
  | tick (cfg : SimConfig) (t : ℕ) (d : Draws) {a : AppState} :
      Reachable a → Reachable (tick cfg a t d)
  | reset {a : AppState} : Reachable a → Reachable (resetApp a)

/-- The configuration of the spec's worked scenario: γ = 0.1, σ = 0.5
(also the source's initial slider values, lines 198–199). -/
noncomputable def cfg5 : SimConfig := { riskAversion := 0.1, volatility := 0.5 }

/-- Draws in which every `Math.random()` returns exactly 0.5. -/
noncomputable def steadyDraws : Draws := { dPrice := 0.5, dAsk := 0.5, dBid := 0.5 }

/-- Draws with a flat price (0.5) and zero fill draws: both fill tests fire. -/
noncomputable def bothFillDraws : Draws := { dPrice := 0.5, dAsk := 0, dBid := 0 }

/-- Draws with a flat price, an ask fill (draw 0) and no bid fill (draw 1). -/
noncomputable def askOnlyDraws : Draws := { dPrice := 0.5, dAsk := 0, dBid := 1 }

/-- Draws with a maximal price draw (1) and no fills (draws 1). -/
noncomputable def upNoFillDraws : Draws := { dPrice := 1, dAsk := 1, dBid := 1 }

lemma afterBoth_none {cfg : SimConfig} {s : SimState} {d : Draws}
    (h1 : ¬ askFilled cfg s d) (h2 : ¬ bidFilled cfg s d) :
    afterBoth cfg s d = (s.inventory, s.cash) := by
  simp [afterBoth, afterAsk, h1, h2]

lemma afterBoth_askOnly {cfg : SimConfig} {s : SimState} {d : Draws}
    (h1 : askFilled cfg s d) (h2 : ¬ bidFilled cfg s d) :
    afterBoth cfg s d = (s.inventory - 1, s.cash + newAsk cfg s d) := by
  simp [afterBoth, afterAsk, h1, h2]

lemma afterBoth_bothFill {cfg : SimConfig} {s : SimState} {d : Draws}
    (h1 : askFilled cfg s d) (h2 : bidFilled cfg s d) :
    afterBoth cfg s d =
      (s.inventory - 1 + 1, s.cash + newAsk cfg s d - newBid cfg s d) := by
  simp [afterBoth, afterAsk, h1, h2]

lemma nextStats_latency (cfg : SimConfig) (s : SimState) (d : Draws)
    (st : SimulationStats) : (nextStats cfg s d st).latency = st.latency := by
  unfold nextStats; split <;> rfl

/-- Claim C1: for every tick computation with non-negative volatility the
quotes satisfy `newBid ≤ newReservation ≤ newAsk`, with
`newBid = newReservation - halfSpread`, `newAsk = newReservation + halfSpread`
and `halfSpread = volatility * 0.8`; either bound is an equality exactly when
the volatility is 0. -/
theorem quote_ordering (cfg : SimConfig) (s : SimState) (d : Draws)
    (h : 0 ≤ cfg.volatility) :
    newBid cfg s d ≤ newReservation cfg s d ∧
    newReservation cfg s d ≤ newAsk cfg s d ∧
    newBid cfg s d = newReservation cfg s d - halfSpread cfg ∧
    newAsk cfg s d = newReservation cfg s d + halfSpread cfg ∧
    halfSpread cfg = cfg.volatility * 0.8 ∧
    (newBid cfg s d = newReservation cfg s d ↔ cfg.volatility = 0) ∧
    (newReservation cfg s d = newAsk cfg s d ↔ cfg.volatility = 0) := by
  unfold newBid newAsk halfSpread
  have h8 : (0:ℝ) ≤ cfg.volatility * 0.8 := by nlinarith
  refine ⟨by linarith, by linarith, rfl, rfl, rfl, ?_, ?_⟩
  · rw [sub_eq_self, mul_eq_zero]
    norm_num
  · rw [eq_comm, add_right_eq_self, mul_eq_zero]
    norm_num

/-- Witness for C1 at the concrete configuration γ = 0.1, σ = 0.5. -/
theorem quote_ordering_witness :
    newBid cfg5 initialSimState steadyDraws ≤
      newReservation cfg5 initialSimState steadyDraws ∧
    newReservation cfg5 initialSimState steadyDraws ≤
      newAsk cfg5 initialSimState steadyDraws :=
  ⟨(quote_ordering cfg5 initialSimState steadyDraws (by norm_num [cfg5])).1,
   (quote_ordering cfg5 initialSimState steadyDraws (by norm_num [cfg5])).2.1⟩

/-- Claim C2: over one tick, the new cash is the old cash plus the executed
ask price (if the ask filled) minus the executed bid price (if the bid
filled), and the new inventory is the old inventory minus the number of ask
fills plus the number of bid fills, with fill size fixed at 1. -/
theorem ledger_conservation (cfg : SimConfig) (a : AppState) (t : ℕ) (d : Draws) :
    (tick cfg a t d).sim.cash =
      a.sim.cash + (if askFilled cfg a.sim d then newAsk cfg a.sim d else 0)
        - (if bidFilled cfg a.sim d then newBid cfg a.sim d else 0) ∧
    (tick cfg a t d).sim.inventory =
      a.sim.inventory - (if askFilled cfg a.sim d then (1:ℝ) else 0)
        + (if bidFilled cfg a.sim d then (1:ℝ) else 0) := by
  by_cases ha : askFilled cfg a.sim d <;> by_cases hb : bidFilled cfg a.sim d <;>
    simp [tick, nextCash, nextInv, afterBoth, afterAsk, ha, hb]

lemma probHitAsk_eq (cfg : SimConfig) (s : SimState) (d : Draws) :
    probHitAsk cfg s d =
      Real.exp (-1.5 * (halfSpread cfg - inventorySkew cfg s)) := by
  unfold probHitAsk newAsk newReservation
  congr 1
  ring

lemma probHitBid_eq (cfg : SimConfig) (s : SimState) (d : Draws) :
    probHitBid cfg s d =
      Real.exp (-1.5 * (halfSpread cfg + inventorySkew cfg s)) := by
  unfold probHitBid newBid newReservation
  congr 1
  ring

lemma probHitAsk_mul_pos (cfg : SimConfig) (s : SimState) (d : Draws) :
    0 < probHitAsk cfg s d * 0.3 :=
  mul_pos (Real.exp_pos _) (by norm_num)

lemma probHitBid_mul_pos (cfg : SimConfig) (s : SimState) (d : Draws) :
    0 < probHitBid cfg s d * 0.3 :=
  mul_pos (Real.exp_pos _) (by norm_num)

lemma exp_mul_lt_one {x : ℝ} (hx : x ≤ 0) : Real.exp x * 0.3 < 1 := by
  have h1 : Real.exp x ≤ 1 := by
    calc Real.exp x ≤ Real.exp 0 := Real.exp_le_exp.mpr hx
    _ = 1 := Real.exp_zero
  nlinarith [Real.exp_pos x]

lemma probHitAsk_mul_lt_one {cfg : SimConfig} {s : SimState} {d : Draws}
    (h : inventorySkew cfg s ≤ halfSpread cfg) :
    probHitAsk cfg s d * 0.3 < 1 := by
  rw [probHitAsk_eq]
  exact exp_mul_lt_one (by nlinarith)

lemma probHitBid_mul_lt_one {cfg : SimConfig} {s : SimState} {d : Draws}
    (h : -halfSpread cfg ≤ inventorySkew cfg s) :
    probHitBid cfg s d * 0.3 < 1 := by
  rw [probHitBid_eq]
  exact exp_mul_lt_one (by nlinarith)

lemma askFilled_bothFillDraws :
    askFilled cfg5 initialSimState bothFillDraws := by
  show bothFillDraws.dAsk < probHitAsk cfg5 initialSimState bothFillDraws * 0.3
  have h := probHitAsk_mul_pos cfg5 initialSimState bothFillDraws
  have h0 : bothFillDraws.dAsk = 0 := by simp [bothFillDraws]
  rw [h0]
  exact h

lemma bidFilled_bothFillDraws :
    bidFilled cfg5 initialSimState bothFillDraws := by
  show bothFillDraws.dBid < probHitBid cfg5 initialSimState bothFillDraws * 0.3
  have h := probHitBid_mul_pos cfg5 initialSimState bothFillDraws
  have h0 : bothFillDraws.dBid = 0 := by simp [bothFillDraws]
  rw [h0]
  exact h

lemma stats_bump_aux (cfg : SimConfig) (a : AppState) (t : ℕ) (d : Draws)
    (h : tradeOccurred cfg a.sim d) :
    (tick cfg a t d).stats.trades = a.stats.trades + 1 ∧
    (tick cfg a t d).stats.volume = a.stats.volume + newMid cfg a.sim d := by
  simp [tick, nextStats, h]

/-- Claim C3 (amended): whenever at least one fill occurs in a tick, the
trades counter is bumped by exactly 1 and `newMid` is added to `volume`
exactly once — even when both the bid and the ask filled. -/
theorem stats_single_bump (cfg : SimConfig) (a : AppState) (t : ℕ) (d : Draws)
    (h : tradeOccurred cfg a.sim d) :
    (tick cfg a t d).stats.trades = a.stats.trades + 1 ∧
    (tick cfg a t d).stats.volume = a.stats.volume + newMid cfg a.sim d :=
  stats_bump_aux cfg a t d h

/-- Witness for the amended C3: from the initial state, with fill draws 0,
both sides fill and the stats are bumped once. -/
theorem stats_single_bump_witness :
    (tick cfg5 initialApp 0 bothFillDraws).stats.trades =
      initialApp.stats.trades + 1 ∧
    (tick cfg5 initialApp 0 bothFillDraws).stats.volume =
      initialApp.stats.volume + newMid cfg5 initialApp.sim bothFillDraws :=
  stats_single_bump cfg5 initialApp 0 bothFillDraws
    (Or.inl askFilled_bothFillDraws)

/-- Counterexample to C3 as stated: starting from the initial state with
γ = 0.1, σ = 0.5, a flat price draw and both fill draws equal to 0, both the
ask and the bid fill, yet `trades` grows by 1 (not by the fill count 2) and
`volume` grows by one `newMid` (not by `2 * newMid`). -/
theorem stats_single_bump_counterexample :
    askFilled cfg5 initialSimState bothFillDraws ∧
    bidFilled cfg5 initialSimState bothFillDraws ∧
    (tick cfg5 initialApp 0 bothFillDraws).stats.trades ≠
      initialApp.stats.trades + 2 ∧
    (tick cfg5 initialApp 0 bothFillDraws).stats.volume ≠
      initialApp.stats.volume + 2 * newMid cfg5 initialApp.sim bothFillDraws := by
  have ha := askFilled_bothFillDraws
  have hb := bidFilled_bothFillDraws
  have hmid : newMid cfg5 initialSimState bothFillDraws = 1000 := by
    simp [newMid, shock, cfg5, bothFillDraws, initialSimState, INITIAL_PRICE]
  refine ⟨ha, hb, ?_, ?_⟩
  · have := stats_bump_aux cfg5 initialApp 0 bothFillDraws (Or.inl ha)
    rw [this.1]
    simp [initialApp, initialStats]
  · have h2 := stats_bump_aux cfg5 initialApp 0 bothFillDraws (Or.inl ha)
    rw [h2.2]
    have hsim : initialApp.sim = initialSimState := rfl
    rw [hsim, hmid]
    norm_num [initialApp, initialStats]

/-- Claim C4 (amended): the published `pnl` statistic is overwritten with
mark-to-market value (post-fill cash plus inventory times the new mid-price)
minus the initial cash only on ticks with at least one fill; on a tick with
zero fills the whole stats record, `pnl` included, is left unchanged. -/
theorem pnl_update (cfg : SimConfig) (a : AppState) (t : ℕ) (d : Draws) :
    (tick cfg a t d).stats.pnl =
      if tradeOccurred cfg a.sim d then
        (tick cfg a t d).sim.cash +
          (tick cfg a t d).sim.inventory * (tick cfg a t d).sim.midPrice -
            INITIAL_CASH
      else a.stats.pnl := by
  by_cases h : tradeOccurred cfg a.sim d <;>
    simp [tick, nextStats, pnlVal, markToMarketVal, h]

lemma tick_stats_noTrade (cfg : SimConfig) (a : AppState) (t : ℕ) (d : Draws)
    (h : ¬ tradeOccurred cfg a.sim d) : (tick cfg a t d).stats = a.stats := by
  simp [tick, nextStats, h]

/-- The `simState` after one tick from start-up in which only the ask
filled at a flat price: one unit sold at 1000.4. -/
noncomputable def simAfterAskFill : SimState :=
  { midPrice := 1000, reservationPrice := 1000, inventory := -1,
    cash := 11000.4, myBid := 999.6, myAsk := 1000.4 }

lemma askFilled_askOnlyDraws :
    askFilled cfg5 initialSimState askOnlyDraws := by
  show askOnlyDraws.dAsk < probHitAsk cfg5 initialSimState askOnlyDraws * 0.3
  have h := probHitAsk_mul_pos cfg5 initialSimState askOnlyDraws
  have h0 : askOnlyDraws.dAsk = 0 := by simp [askOnlyDraws]
  rw [h0]
  exact h

lemma not_bidFilled_askOnlyDraws :
    ¬ bidFilled cfg5 initialSimState askOnlyDraws := by
  show ¬ (askOnlyDraws.dBid < probHitBid cfg5 initialSimState askOnlyDraws * 0.3)
  have h1 : probHitBid cfg5 initialSimState askOnlyDraws * 0.3 < 1 :=
    probHitBid_mul_lt_one
      (by norm_num [inventorySkew, halfSpread, cfg5, initialSimState])
  have h0 : askOnlyDraws.dBid = 1 := by simp [askOnlyDraws]
  rw [h0]
  linarith

lemma tick1_quotes :
    newMid cfg5 initialSimState askOnlyDraws = 1000 ∧
    newReservation cfg5 initialSimState askOnlyDraws = 1000 ∧
    newBid cfg5 initialSimState askOnlyDraws = 999.6 ∧
    newAsk cfg5 initialSimState askOnlyDraws = 1000.4 := by
  norm_num [newMid, shock, newReservation, inventorySkew, halfSpread, newBid,
    newAsk, cfg5, askOnlyDraws, initialSimState, INITIAL_PRICE]

lemma tick1_inv_cash :
    nextInv cfg5 initialSimState askOnlyDraws = -1 ∧
    nextCash cfg5 initialSimState askOnlyDraws = 11000.4 := by
  have key := afterBoth_askOnly askFilled_askOnlyDraws not_bidFilled_askOnlyDraws
  constructor
  · rw [nextInv, key]
    norm_num [initialSimState]
  · rw [nextCash, key, tick1_quotes.2.2.2]
    norm_num [initialSimState, INITIAL_CASH]

lemma tick1_sim :
    (tick cfg5 initialApp 0 askOnlyDraws).sim = simAfterAskFill := by
  show SimState.mk _ _ _ _ _ _ = _
  have hs : initialApp.sim = initialSimState := rfl
  rw [simAfterAskFill, SimState.mk.injEq, hs]
  exact ⟨tick1_quotes.1, tick1_quotes.2.1, tick1_inv_cash.1, tick1_inv_cash.2,
    tick1_quotes.2.2.1, tick1_quotes.2.2.2⟩

lemma tick1_pnl :
    (tick cfg5 initialApp 0 askOnlyDraws).stats.pnl = 0.4 := by
  have hs : initialApp.sim = initialSimState := rfl
  show (nextStats cfg5 initialApp.sim askOnlyDraws initialApp.stats).pnl = 0.4
  rw [hs, nextStats, if_pos (Or.inl askFilled_askOnlyDraws)]
  show pnlVal cfg5 initialSimState askOnlyDraws = 0.4
  rw [pnlVal, markToMarketVal, tick1_inv_cash.1, tick1_inv_cash.2, tick1_quotes.1]
  norm_num [INITIAL_CASH]

lemma not_askFilled_up :
    ¬ askFilled cfg5 simAfterAskFill upNoFillDraws := by
  show ¬ (upNoFillDraws.dAsk < probHitAsk cfg5 simAfterAskFill upNoFillDraws * 0.3)
  have h1 : probHitAsk cfg5 simAfterAskFill upNoFillDraws * 0.3 < 1 :=
    probHitAsk_mul_lt_one
      (by norm_num [inventorySkew, halfSpread, cfg5, simAfterAskFill])
  have h0 : upNoFillDraws.dAsk = 1 := by simp [upNoFillDraws]
  rw [h0]
  linarith

lemma not_bidFilled_up :
    ¬ bidFilled cfg5 simAfterAskFill upNoFillDraws := by
  show ¬ (upNoFillDraws.dBid < probHitBid cfg5 simAfterAskFill upNoFillDraws * 0.3)
  have h1 : probHitBid cfg5 simAfterAskFill upNoFillDraws * 0.3 < 1 :=
    probHitBid_mul_lt_one
      (by norm_num [inventorySkew, halfSpread, cfg5, simAfterAskFill])
  have h0 : upNoFillDraws.dBid = 1 := by simp [upNoFillDraws]
  rw [h0]
  linarith

/-- Counterexample to C4 as stated: run one tick from start-up in which only
the ask fills (so `pnl` is published as 0.4), then a second tick with zero
fills in which the mid-price moves up by 0.5; after that second tick the
published `pnl` is still the stale 0.4, while mark-to-market minus the
initial cash is −0.1. -/
theorem pnl_update_counterexample :
    (tick cfg5 (tick cfg5 initialApp 0 askOnlyDraws) 1 upNoFillDraws).stats.pnl ≠
      (tick cfg5 (tick cfg5 initialApp 0 askOnlyDraws) 1 upNoFillDraws).sim.cash +
        (tick cfg5 (tick cfg5 initialApp 0 askOnlyDraws) 1 upNoFillDraws).sim.inventory *
          (tick cfg5 (tick cfg5 initialApp 0 askOnlyDraws) 1 upNoFillDraws).sim.midPrice -
        INITIAL_CASH := by
  have hnt : ¬ tradeOccurred cfg5 (tick cfg5 initialApp 0 askOnlyDraws).sim upNoFillDraws := by
    rw [tick1_sim]
    rintro (h | h)
    · exact not_askFilled_up h
    · exact not_bidFilled_up h
  have hstats := tick_stats_noTrade cfg5 (tick cfg5 initialApp 0 askOnlyDraws) 1 upNoFillDraws hnt
  rw [hstats, tick1_pnl]
  have key := afterBoth_none not_askFilled_up not_bidFilled_up
  show (0.4:ℝ) ≠
    nextCash cfg5 (tick cfg5 initialApp 0 askOnlyDraws).sim upNoFillDraws +
      nextInv cfg5 (tick cfg5 initialApp 0 askOnlyDraws).sim upNoFillDraws *
        newMid cfg5 (tick cfg5 initialApp 0 askOnlyDraws).sim upNoFillDraws -
      INITIAL_CASH
  rw [tick1_sim]
  have hc : nextCash cfg5 simAfterAskFill upNoFillDraws = simAfterAskFill.cash := by
    rw [nextCash, key]
  have hi : nextInv cfg5 simAfterAskFill upNoFillDraws = simAfterAskFill.inventory := by
    rw [nextInv, key]
  rw [hc, hi]
  norm_num [simAfterAskFill, newMid, shock, cfg5, upNoFillDraws, INITIAL_CASH]

/-- The run in which every `Math.random()` draw returns 0.5, started from
the initial state with γ = 0.1, σ = 0.5. -/
noncomputable def steadyRun : ℕ → AppState
  | 0 => initialApp
  | n + 1 => tick cfg5 (steadyRun n) n steadyDraws

lemma steady_quotes (s : SimState) (hm : s.midPrice = 1000) (hi : s.inventory = 0) :
    shock cfg5 steadyDraws = 0 ∧
    newMid cfg5 s steadyDraws = 1000 ∧
    newReservation cfg5 s steadyDraws = 1000 ∧
    newBid cfg5 s steadyDraws = 999.6 ∧
    newAsk cfg5 s steadyDraws = 1000.4 := by
  norm_num [newMid, shock, newReservation, inventorySkew, halfSpread, newBid,
    newAsk, cfg5, steadyDraws, hm, hi]

lemma steady_thresholds (s : SimState) (hi : s.inventory = 0) :
    probHitAsk cfg5 s steadyDraws = Real.exp (-(1.5 * 0.4)) ∧
    probHitBid cfg5 s steadyDraws = Real.exp (-(1.5 * 0.4)) ∧
    probHitAsk cfg5 s steadyDraws * 0.3 < 0.5 ∧
    probHitBid cfg5 s steadyDraws * 0.3 < 0.5 ∧
    ¬ askFilled cfg5 s steadyDraws ∧ ¬ bidFilled cfg5 s steadyDraws := by
  have hexp : Real.exp (-(1.5 * 0.4)) < 1 := by
    calc Real.exp (-(1.5 * 0.4)) < Real.exp 0 := Real.exp_lt_exp.mpr (by norm_num)
    _ = 1 := Real.exp_zero
  have hpos : 0 < Real.exp (-(1.5 * 0.4)) := Real.exp_pos _
  have ha : probHitAsk cfg5 s steadyDraws = Real.exp (-(1.5 * 0.4)) := by
    rw [probHitAsk_eq]
    congr 1
    norm_num [halfSpread, inventorySkew, cfg5, hi]
  have hb : probHitBid cfg5 s steadyDraws = Real.exp (-(1.5 * 0.4)) := by
    rw [probHitBid_eq]
    congr 1
    norm_num [halfSpread, inventorySkew, cfg5, hi]
  have hlt : Real.exp (-(1.5 * 0.4)) * 0.3 < 0.5 := by nlinarith
  refine ⟨ha, hb, by rw [ha]; exact hlt, by rw [hb]; exact hlt, ?_, ?_⟩
  · show ¬ (steadyDraws.dAsk < probHitAsk cfg5 s steadyDraws * 0.3)
    have h0 : steadyDraws.dAsk = 0.5 := by simp [steadyDraws]
    rw [h0, ha]
    linarith
  · show ¬ (steadyDraws.dBid < probHitBid cfg5 s steadyDraws * 0.3)
    have h0 : steadyDraws.dBid = 0.5 := by simp [steadyDraws]
    rw [h0, hb]
    linarith

lemma steadyRun_state (n : ℕ) :
    (steadyRun n).sim.midPrice = 1000 ∧ (steadyRun n).sim.inventory = 0 ∧
    (steadyRun n).sim.cash = 10000 := by
  induction n with
  | zero =>
      norm_num [steadyRun, initialApp, initialSimState, INITIAL_PRICE, INITIAL_CASH]
  | succ n ih =>
      obtain ⟨hm, hi, hc⟩ := ih
      have hq := steady_quotes (steadyRun n).sim hm hi
      have ht := steady_thresholds (steadyRun n).sim hi
      have key := afterBoth_none ht.2.2.2.2.1 ht.2.2.2.2.2
      refine ⟨?_, ?_, ?_⟩
      · show newMid cfg5 (steadyRun n).sim steadyDraws = 1000
        exact hq.2.1
      · show nextInv cfg5 (steadyRun n).sim steadyDraws = 0
        rw [nextInv, key]
        exact hi
      · show nextCash cfg5 (steadyRun n).sim steadyDraws = 10000
        rw [nextCash, key]
        exact hc

/-- Claim C5: starting from the initial state (mid 1000, inventory 0, cash
10000) with γ = 0.1 and σ = 0.5, if every random draw returns exactly 0.5
then on every tick the shock is 0, the mid-price stays 1000, the reservation
price is 1000, the bid is 999.6, the ask is 1000.4, both fill thresholds
equal `exp (-(1.5 * 0.4)) * 0.3` (≈ 0.165) and stay below the 0.5 draw, no
fill occurs, and inventory and cash remain 0 and 10000. -/
theorem steady_scenario (n : ℕ) :
    (steadyRun n).sim.midPrice = 1000 ∧
    (steadyRun n).sim.inventory = 0 ∧
    (steadyRun n).sim.cash = 10000 ∧
    shock cfg5 steadyDraws = 0 ∧
    newMid cfg5 (steadyRun n).sim steadyDraws = 1000 ∧
    newReservation cfg5 (steadyRun n).sim steadyDraws = 1000 ∧
    newBid cfg5 (steadyRun n).sim steadyDraws = 999.6 ∧
    newAsk cfg5 (steadyRun n).sim steadyDraws = 1000.4 ∧
    probHitAsk cfg5 (steadyRun n).sim steadyDraws * 0.3 =
      Real.exp (-(1.5 * 0.4)) * 0.3 ∧
    probHitBid cfg5 (steadyRun n).sim steadyDraws * 0.3 =
      Real.exp (-(1.5 * 0.4)) * 0.3 ∧
    probHitAsk cfg5 (steadyRun n).sim steadyDraws * 0.3 < 0.5 ∧
    probHitBid cfg5 (steadyRun n).sim steadyDraws * 0.3 < 0.5 ∧
    ¬ askFilled cfg5 (steadyRun n).sim steadyDraws ∧
    ¬ bidFilled cfg5 (steadyRun n).sim steadyDraws ∧
    (steadyRun (n + 1)).sim.inventory = (steadyRun n).sim.inventory ∧
    (steadyRun (n + 1)).sim.cash = (steadyRun n).sim.cash := by
  obtain ⟨hm, hi, hc⟩ := steadyRun_state n
  obtain ⟨hm1, hi1, hc1⟩ := steadyRun_state (n + 1)
  have hq := steady_quotes (steadyRun n).sim hm hi
  have ht := steady_thresholds (steadyRun n).sim hi
  exact ⟨hm, hi, hc, hq.1, hq.2.1, hq.2.2.1, hq.2.2.2.1, hq.2.2.2.2,
    by rw [ht.1], by rw [ht.2.1], ht.2.2.1, ht.2.2.2.1, ht.2.2.2.2.1,
    ht.2.2.2.2.2, by rw [hi1, hi], by rw [hc1, hc]⟩

lemma pushChart_small {α : Type*} (l : List α) (x : α) (h : l.length ≤ 59) :
    pushChart l x = l ++ [x] := by
  have hle : ¬ ((l ++ [x]).length > 60) := by
    simp only [List.length_append, List.length_singleton]
    omega
  show (if (l ++ [x]).length > 60 then (l ++ [x]).tail else (l ++ [x])) = l ++ [x]
  rw [if_neg hle]

lemma pushChart_full {α : Type*} (l : List α) (x : α) (h : 60 ≤ l.length) :
    pushChart l x = l.tail ++ [x] := by
  have hgt : (l ++ [x]).length > 60 := by
    simp only [List.length_append, List.length_singleton]
    omega
  show (if (l ++ [x]).length > 60 then (l ++ [x]).tail else (l ++ [x])) = l.tail ++ [x]
  rw [if_pos hgt]
  cases l with
  | nil => simp at h
  | cons a as => simp

lemma foldl_pushChart {α : Type*} (xs : List α) :
    List.foldl pushChart ([] : List α) xs = xs.drop (xs.length - 60) := by
  induction xs using List.reverseRecOn with
  | nil => simp
  | append_singleton ys y ih =>
      rw [List.foldl_append, List.foldl_cons, List.foldl_nil, ih]
      by_cases h : ys.length ≤ 59
      · rw [pushChart_small _ _ (by rw [List.length_drop]; omega)]
        have h0 : ys.length - 60 = 0 := by omega
        have h0' : (ys ++ [y]).length - 60 = 0 := by
          simp only [List.length_append, List.length_singleton]
          omega
        rw [h0, h0']
        simp
      · push_neg at h
        rw [pushChart_full _ _ (by rw [List.length_drop]; omega)]
        rw [List.tail_drop]
        have h1 : (ys ++ [y]).length - 60 = ys.length - 60 + 1 := by
          simp only [List.length_append, List.length_singleton]
          omega
        rw [h1, List.drop_append_of_le_length (by omega)]

/-- Claim C6: after any N ≥ 60 appends to the (initially empty) chart
buffer, the buffer has length exactly 60 and equals the 60 most recently
appended entries in order (oldest first, newest last); moreover each append
to a full buffer evicts exactly the oldest entry. -/
theorem history_window {α : Type*} (xs : List α) (h : 60 ≤ xs.length) :
    (List.foldl pushChart ([] : List α) xs).length = 60 ∧
    List.foldl pushChart ([] : List α) xs = xs.drop (xs.length - 60) ∧
    ∀ (l : List α) (x : α), l.length = 60 → pushChart l x = l.tail ++ [x] := by
  refine ⟨?_, foldl_pushChart xs, fun l x hl => pushChart_full l x (by omega)⟩
  rw [foldl_pushChart xs, List.length_drop]
  omega

/-- Witness for C6 on a concrete sequence of 61 appends. -/
theorem history_window_witness :
    (List.foldl pushChart ([] : List ℕ) (List.range 61)).length = 60 ∧
    List.foldl pushChart ([] : List ℕ) (List.range 61) =
      (List.range 61).drop ((List.range 61).length - 60) :=
  ⟨(history_window (List.range 61) (by simp)).1,
   (history_window (List.range 61) (by simp)).2.1⟩

/-- Claim C7: the reset handler is idempotent — applying it twice from any
state equals applying it once — and the post-reset state has midPrice 1000,
cash 10000, inventory 0, pnl 0, trades 0, volume 0 and an empty history. -/
theorem reset_idempotent (a : AppState) :
    resetApp (resetApp a) = resetApp a ∧
    (resetApp a).sim.midPrice = 1000 ∧
    (resetApp a).sim.cash = 10000 ∧
    (resetApp a).sim.inventory = 0 ∧
    (resetApp a).stats.pnl = 0 ∧
    (resetApp a).stats.trades = 0 ∧
    (resetApp a).stats.volume = 0 ∧
    (resetApp a).marketData = ([] : List ChartPoint) :=
  ⟨rfl, rfl, rfl, rfl, rfl, rfl, rfl, rfl⟩

/-- A state with a large positive inventory (100 units): its ask quote lies
far below the mid-price. -/
noncomputable def bigInvSim : SimState := { initialSimState with inventory := 100 }

/-- Counterexample to C8 as stated: with γ = 0.1, σ = 0.5 and inventory 100,
the ask quote lies 24.6 below the mid-price, and the effective ask-fill
threshold `probHitAsk * 0.3 = exp(36.9) * 0.3` exceeds 1 — no clamping to
[0,1] happens anywhere in the tick. -/
theorem clamp_counterexample :
    1 < probHitAsk cfg5 bigInvSim steadyDraws * 0.3 := by
  rw [probHitAsk_eq]
  have h1 : halfSpread cfg5 - inventorySkew cfg5 bigInvSim = -24.6 := by
    norm_num [halfSpread, inventorySkew, cfg5, bigInvSim, initialSimState]
  rw [h1]
  have h2 := Real.add_one_le_exp (-1.5 * (-24.6 : ℝ))
  nlinarith

/-- Claim C8 (amended): the code never clamps the fill thresholds — they
are the raw values `probHit* * 0.3`, always strictly positive and possibly
above 1 when a quote lies on the far side of the mid-price — but for any
uniform draw in [0, 1) the unclamped Bernoulli test decides exactly as the
test against the threshold clamped into [0, 1] would. -/
theorem fill_test_clamp_equiv (cfg : SimConfig) (s : SimState) (d : Draws)
    (ha1 : d.dAsk < 1) (hb1 : d.dBid < 1) :
    0 < probHitAsk cfg s d * 0.3 ∧ 0 < probHitBid cfg s d * 0.3 ∧
    (askFilled cfg s d ↔ d.dAsk < min 1 (max 0 (probHitAsk cfg s d * 0.3))) ∧
    (bidFilled cfg s d ↔ d.dBid < min 1 (max 0 (probHitBid cfg s d * 0.3))) := by
  have hA := probHitAsk_mul_pos cfg s d
  have hB := probHitBid_mul_pos cfg s d
  refine ⟨hA, hB, ?_, ?_⟩
  · rw [max_eq_right hA.le]
    rcases le_or_lt (probHitAsk cfg s d * 0.3) 1 with h | h
    · rw [min_eq_right h]
    · rw [min_eq_left h.le]
      exact ⟨fun _ => ha1, fun _ => lt_trans ha1 h⟩
  · rw [max_eq_right hB.le]
    rcases le_or_lt (probHitBid cfg s d * 0.3) 1 with h | h
    · rw [min_eq_right h]
    · rw [min_eq_left h.le]
      exact ⟨fun _ => hb1, fun _ => lt_trans hb1 h⟩

/-- Witness for the amended C8 at the concrete 0.5 draws. -/
theorem fill_test_clamp_equiv_witness :
    0 < probHitAsk cfg5 initialSimState steadyDraws * 0.3 ∧
    (askFilled cfg5 initialSimState steadyDraws ↔
      steadyDraws.dAsk <
        min 1 (max 0 (probHitAsk cfg5 initialSimState steadyDraws * 0.3))) :=
  ⟨(fill_test_clamp_equiv cfg5 initialSimState steadyDraws
      (by norm_num [steadyDraws]) (by norm_num [steadyDraws])).1,
   (fill_test_clamp_equiv cfg5 initialSimState steadyDraws
      (by norm_num [steadyDraws]) (by norm_num [steadyDraws])).2.2.1⟩

/-- Claim C9: with positive risk aversion and volatility and everything else
fixed, the reservation price is strictly decreasing in inventory, and it
equals the new mid-price minus `inventory * riskAversion * volatility * 5`. -/
theorem skew_direction (cfg : SimConfig) (d : Draws) (m q q' : ℝ)
    (hγ : 0 < cfg.riskAversion) (hσ : 0 < cfg.volatility) (h : q < q') :
    newReservation cfg { initialSimState with midPrice := m, inventory := q' } d <
      newReservation cfg { initialSimState with midPrice := m, inventory := q } d ∧
    ∀ s : SimState, newReservation cfg s d =
      newMid cfg s d - s.inventory * cfg.riskAversion * cfg.volatility * 5 := by
  constructor
  · have e1 : newReservation cfg { initialSimState with midPrice := m, inventory := q' } d
        = m + shock cfg d - q' * cfg.riskAversion * cfg.volatility * 5 := rfl
    have e2 : newReservation cfg { initialSimState with midPrice := m, inventory := q } d
        = m + shock cfg d - q * cfg.riskAversion * cfg.volatility * 5 := rfl
    rw [e1, e2]
    nlinarith [mul_pos hγ hσ]
  · intro s
    rfl

/-- Witness for C9: γ = 0.1, σ = 0.5, inventory raised from 0 to 1 at
mid-price 1000 strictly lowers the reservation price. -/
theorem skew_direction_witness :
    newReservation cfg5 { initialSimState with midPrice := 1000, inventory := 1 }
        steadyDraws <
      newReservation cfg5 { initialSimState with midPrice := 1000, inventory := 0 }
        steadyDraws :=
  (skew_direction cfg5 steadyDraws 1000 0 1 (by norm_num [cfg5])
    (by norm_num [cfg5]) (by norm_num)).1

/-- Claim C10: in every reachable state the `latency` stats field is 0 — it
starts at 0, the per-tick stats update never writes it, and reset writes 0. -/
theorem latency_always_zero (a : AppState) (h : Reachable a) :
    a.stats.latency = 0 := by
  induction h with
  | init => rfl
  | tick cfg t d _ ih =>
      show (nextStats cfg _ _ _).latency = 0
      rw [nextStats_latency]
      exact ih
  | reset _ _ => rfl

/-- Witness for C10 at the initial state. -/
theorem latency_always_zero_witness : initialApp.stats.latency = 0 :=
  latency_always_zero initialApp Reachable.init

end MMSim
